import Mathlib

/-!
Verification of the task-access and lifecycle policy of the attendance
application. The definitions below are a shallow embedding of the Express
route handlers for the task API (GET, POST, PUT, DELETE on tasks, plus the
comment, time-tracking and reporting endpoints). Rational numbers stand in
for JavaScript numbers (timestamps in milliseconds, hours, percentages);
`Option` models absent values and JavaScript NaN where noted.
-/

namespace TaskApi

/-- Role check used throughout the handlers, from the expression
`['admin', 'hr'].includes(req.user.role)`. Roles are plain strings. -/
def isAdminOrHR (role : String) : Bool :=
  role == "admin" || role == "hr"

/-- JavaScript truthiness of an optional query-string parameter: an absent
parameter and the empty string are falsy, every other string is truthy. -/
def truthy : Option String → Bool
  | none => false
  | some s => s != ""

/-- The authenticated caller, as supplied by the authentication middleware:
an id and a role string. -/
structure Caller where
  id : String
  role : String
deriving DecidableEq

/-- Modelled from the spec: the `authorize` route middleware
(middleware/auth.js, which is not under src; only its call sites are).
Per the spec, a caller whose role is not among the permitted roles for the
route receives access-denied, and the middleware runs before the route
handler body. -/
def authorize (roles : List String) (user : Caller) : Bool :=
  roles.contains user.role

/-- Values appearing in a JSON request body: strings, numbers
(JavaScript numbers modelled as rationals) and string lists. -/
inductive Value where
  | str (s : String)
  | num (q : ℚ)
  | strList (l : List String)
deriving DecidableEq

/-- A comment on a task: author reference and text. -/
structure Comment where
  user : String
  comment : String
deriving DecidableEq

/-- A time-tracking entry as pushed by the time-tracking handler:
start and end timestamps (milliseconds), derived duration in minutes,
optional description, and the calendar day of the start (as a day index,
standing in for the YYYY-MM-DD string). -/
structure TimeEntry where
  startTime : ℚ
  endTime : ℚ
  duration : Int
  description : Option String
  date : Int
deriving DecidableEq

/-- A task document, with the fields the route handlers read or write.
Timestamps are milliseconds since the epoch, modelled as rationals. -/
structure Task where
  title : String
  description : String
  priority : String
  assignedTo : String
  assignedBy : String
  dueDate : ℚ
  estimatedHours : ℚ
  actualHours : ℚ
  category : String
  tags : List String
  status : String
  progress : ℚ
  dependencies : List String
  completionReason : String
  completedAt : Option ℚ
  comments : List Comment
  timeTracking : List TimeEntry
deriving DecidableEq

/-- Resolution of the caller-visible assignedTo component of the list-tasks
query predicate, from the visibility branch of the GET handler: employees
are forced to their own id; admin and hr use a truthy assignedTo query
parameter when given one and fall back to their own id otherwise. -/
def taskListAssignedTo (user : Caller) (assignedTo : Option String) : String :=
  if !(isAdminOrHR user.role) then user.id
  else if truthy assignedTo then assignedTo.getD ""
  else user.id

/-- Allow-set for task updates by admin and hr callers, from the PUT handler. -/
def adminAllowedUpdates : List String :=
  ["title", "description", "priority", "assignedTo", "dueDate", "estimatedHours",
   "category", "tags", "status", "progress", "dependencies", "completionReason"]

/-- Allow-set for task updates by the assigned (non-admin, non-hr) user,
from the PUT handler. -/
def assigneeAllowedUpdates : List String :=
  ["status", "progress", "actualHours", "completionReason"]

/-- Role-dispatched allow-set: the admin and hr set or the assignee set. -/
def allowedUpdates (adminOrHR : Bool) : List String :=
  if adminOrHR then adminAllowedUpdates else assigneeAllowedUpdates

/-- A request body for the update handler: keyed values. A JavaScript object
has at most one value per key; lookups below take the first occurrence. -/
abbrev Body := List (String × Value)

/-- First value stored under a key, mirroring a JavaScript property read. -/
def lookupVal (us : Body) (k : String) : Option Value :=
  (us.find? (fun kv => kv.1 == k)).map (fun kv => kv.2)

/-- Property assignment `updates[k] = v`: any existing binding for the key is
replaced. -/
def setKey (us : Body) (k : String) (v : Value) : Body :=
  us.filter (fun kv => kv.1 != k) ++ [(k, v)]

/-- The key filter of the PUT handler: keep exactly the body keys that are in
the caller's allow-set, dropping every other key silently. -/
def filterAllowed (adminOrHR : Bool) (body : Body) : Body :=
  body.filter (fun kv => (allowedUpdates adminOrHR).contains kv.1)

/-- Special handling for status updates in the PUT handler: when the filtered
updates set status to completed, stamp completedAt with the current time and
force progress to 100. -/
def applyCompletion (updates : Body) (now : ℚ) : Body :=
  if lookupVal updates "status" = some (Value.str "completed") then
    setKey (setKey updates "completedAt" (Value.num now)) "progress" (Value.num 100)
  else updates

/-- String read of an update key with a fallback to the stored field. -/
def getStr (us : Body) (k : String) (d : String) : String :=
  match lookupVal us k with
  | some (Value.str s) => s
  | _ => d

/-- Numeric read of an update key with a fallback to the stored field. -/
def getNum (us : Body) (k : String) (d : ℚ) : ℚ :=
  match lookupVal us k with
  | some (Value.num q) => q
  | _ => d

/-- String-list read of an update key with a fallback to the stored field. -/
def getStrList (us : Body) (k : String) (d : List String) : List String :=
  match lookupVal us k with
  | some (Value.strList l) => l
  | _ => d

/-- Optional numeric read of an update key with a fallback to the stored
field; used for completedAt, which the handler stores as a date. -/
def getNumOpt (us : Body) (k : String) (d : Option ℚ) : Option ℚ :=
  match lookupVal us k with
  | some (Value.num q) => some q
  | _ => d

/-- Field-wise application of an update document to a stored task, standing
in for the persistence layer's set-fields update: each schema field present
in the updates replaces the stored value, every other field is untouched. -/
def applyToTask (t : Task) (us : Body) : Task :=
  { t with
    title := getStr us "title" t.title
    description := getStr us "description" t.description
    priority := getStr us "priority" t.priority
    assignedTo := getStr us "assignedTo" t.assignedTo
    dueDate := getNum us "dueDate" t.dueDate
    estimatedHours := getNum us "estimatedHours" t.estimatedHours
    actualHours := getNum us "actualHours" t.actualHours
    category := getStr us "category" t.category
    tags := getStrList us "tags" t.tags
    status := getStr us "status" t.status
    progress := getNum us "progress" t.progress
    dependencies := getStrList us "dependencies" t.dependencies
    completionReason := getStr us "completionReason" t.completionReason
    completedAt := getNumOpt us "completedAt" t.completedAt }

/-- Outcome of the update handler. -/
inductive UpdateResult where
  | notFound
  | accessDenied
  | ok (t : Task)
deriving DecidableEq

/-- The PUT handler: look the task up (absent means not-found), deny access
unless the caller is admin or hr or the assigned user, filter the body by the
role-determined allow-set, apply the completion side effect, and persist. -/
def putTask (stored : Option Task) (user : Caller) (body : Body) (now : ℚ) :
    UpdateResult :=
  match stored with
  | none => UpdateResult.notFound
  | some task =>
    let adminOrHR := isAdminOrHR user.role
    let assignedUser := task.assignedTo == user.id
    if !adminOrHR && !assignedUser then UpdateResult.accessDenied
    else
      let updates := applyCompletion (filterAllowed adminOrHR body) now
      UpdateResult.ok (applyToTask task updates)

/-- Outcome of the single-task read handler. -/
inductive ReadResult where
  | notFound
  | accessDenied
  | ok (t : Task)
deriving DecidableEq

/-- The GET single-task handler: absent task means not-found; a caller who is
neither admin nor hr nor the assignee is denied; otherwise the task is
returned. -/
def getTask (stored : Option Task) (user : Caller) : ReadResult :=
  match stored with
  | none => ReadResult.notFound
  | some task =>
    if !(isAdminOrHR user.role) && task.assignedTo != user.id then
      ReadResult.accessDenied
    else ReadResult.ok task

/-- Outcome of the comment handler. -/
inductive CommentResult where
  | validationError
  | notFound
  | accessDenied
  | ok (t : Task)
deriving DecidableEq

/-- The comment handler: the validator middleware rejects an empty comment
before the handler body runs; then absent task means not-found; then a caller
who is neither admin nor hr nor the assignee nor the creator is denied;
otherwise the comment is appended. -/
def addComment (stored : Option Task) (user : Caller) (text : String) :
    CommentResult :=
  if text = "" then CommentResult.validationError
  else
    match stored with
    | none => CommentResult.notFound
    | some task =>
      let adminOrHR := isAdminOrHR user.role
      let assignedUser := task.assignedTo == user.id
      let creator := task.assignedBy == user.id
      if !adminOrHR && !assignedUser && !creator then CommentResult.accessDenied
      else
        CommentResult.ok
          { task with comments := task.comments ++ [⟨user.id, text⟩] }

/-- JavaScript `Math.round`: round, with halves rounding up (towards
positive infinity). -/
def jsRound (x : ℚ) : Int := ⌊x + 1 / 2⌋

/-- Duration in minutes of a time-tracking entry, from
`Math.round((end - start) / (1000 * 60))`. -/
def timeDuration (startMs endMs : ℚ) : Int := jsRound ((endMs - startMs) / 60000)

/-- Calendar day of a timestamp, as a day index since the epoch, standing in
for the YYYY-MM-DD prefix of the ISO string. -/
def dateOfMs (t : ℚ) : Int := ⌊t / 86400000⌋

/-- Outcome of the time-tracking handler. -/
inductive TimeTrackResult where
  | notFound
  | accessDenied
  | validationError
  | ok (t : Task)
deriving DecidableEq

/-- The time-tracking handler, after the validator middleware has accepted
both timestamps as parseable: absent task means not-found; only the assignee
may append; a non-positive rounded duration is a validation failure and
nothing is appended; otherwise exactly one derived entry is appended. -/
def addTimeEntry (stored : Option Task) (user : Caller) (startMs endMs : ℚ)
    (description : Option String) : TimeTrackResult :=
  match stored with
  | none => TimeTrackResult.notFound
  | some task =>
    if task.assignedTo != user.id then TimeTrackResult.accessDenied
    else
      let duration := timeDuration startMs endMs
      if duration ≤ 0 then TimeTrackResult.validationError
      else
        TimeTrackResult.ok
          { task with
            timeTracking := task.timeTracking ++
              [{ startTime := startMs, endTime := endMs, duration := duration,
                 description := description, date := dateOfMs startMs }] }

/-- Outcome of the delete handler. -/
inductive DeleteResult where
  | accessDenied
  | notFound
  | ok
deriving DecidableEq

/-- The DELETE handler chain: the route is declared with the admin-only
authorize middleware, which runs before the handler body, so the role gate is
evaluated before the task lookup; the handler then reports not-found for an
absent task and otherwise deletes. -/
def deleteTask (stored : Option Task) (user : Caller) : DeleteResult :=
  if !(authorize ["admin"] user) then DeleteResult.accessDenied
  else
    match stored with
    | none => DeleteResult.notFound
    | some _ => DeleteResult.ok

/-- A task-creation request body, with the fields the POST handler
destructures plus a client-supplied assignedBy field, which the handler never
reads. -/
structure CreateBody where
  title : String
  description : String
  priority : String
  assignedTo : String
  dueDate : ℚ
  estimatedHours : Option ℚ
  category : String
  tags : List String
  dependencies : List String
  isRecurring : Option Bool
  recurringPattern : Option String
  assignedBy : Option String
deriving DecidableEq

/-- The document handed to the persistence layer by the POST handler: exactly
the fields of the object literal passed to the Task constructor. -/
structure NewTaskDoc where
  title : String
  description : String
  priority : String
  assignedTo : String
  assignedBy : String
  dueDate : ℚ
  estimatedHours : Option ℚ
  category : String
  tags : List String
  dependencies : List String
  isRecurring : Option Bool
  recurringPattern : Option String
deriving DecidableEq

/-- Outcome of the creation handler. -/
inductive CreateResult where
  | accessDenied
  | validationError
  | userNotFound
  | ok (doc : NewTaskDoc)
deriving DecidableEq

/-- The POST handler chain: the admin-or-hr authorize middleware, then the
field validators (an external middleware whose verdict is passed in as
`bodyValid`; none of its checks reads the body's assignedBy), then the
existence check on the assignee, then construction of the new document with
assignedBy taken from the authenticated caller. -/
def createTask (user : Caller) (bodyValid : Bool) (assigneeExists : Bool)
    (b : CreateBody) : CreateResult :=
  if !(authorize ["admin", "hr"] user) then CreateResult.accessDenied
  else if !bodyValid then CreateResult.validationError
  else if !assigneeExists then CreateResult.userNotFound
  else
    CreateResult.ok
      { title := b.title, description := b.description, priority := b.priority,
        assignedTo := b.assignedTo, assignedBy := user.id,
        dueDate := b.dueDate, estimatedHours := b.estimatedHours,
        category := b.category, tags := b.tags,
        dependencies := b.dependencies, isRecurring := b.isRecurring,
        recurringPattern := b.recurringPattern }

/-- Hexadecimal digit test for the numeric-literal coercions. -/
def isHexDigit (c : Char) : Bool :=
  c.isDigit || (decide ('a' ≤ c) && decide (c ≤ 'f')) ||
    (decide ('A' ≤ c) && decide (c ≤ 'F'))

/-- Numeric value of one digit character, for bases up to 16. -/
def digitVal (c : Char) : Nat :=
  if c.isDigit then c.toNat - '0'.toNat
  else if decide ('a' ≤ c) && decide (c ≤ 'f') then c.toNat - 'a'.toNat + 10
  else c.toNat - 'A'.toNat + 10

/-- Numeric value of a list of digit characters in the given base. -/
def digitsValBase (base : Nat) (l : List Char) : Nat :=
  l.foldl (fun acc c => acc * base + digitVal c) 0

/-- Numeric value of a list of decimal digit characters. -/
def digitsVal (l : List Char) : Nat := digitsValBase 10 l

/-- Leading and trailing whitespace removed, as the Number() coercion does
before parsing. -/
def trimWs (l : List Char) : List Char :=
  ((l.dropWhile (fun c => c.isWhitespace)).reverse.dropWhile
    (fun c => c.isWhitespace)).reverse

/-- Character list of the Infinity literal of the Number() grammar. -/
def infinityChars : List Char := ['I', 'n', 'f', 'i', 'n', 'i', 't', 'y']

/-- Exponent part of a decimal literal of the Number() grammar: on the empty
list the literal's value, after e or E a signed digit exponent scaling it;
anything else fails the parse (NaN). The integer and fraction parts arrive
as digit values together with the fraction's digit count, and the sign of
the whole literal as an integer factor. -/
def parseExpPart (sgn : Int) (ipVal fpVal fpLen : Nat) (l : List Char) :
    Option ℚ :=
  match l with
  | [] => some (mkRat (sgn * ((ipVal * 10 ^ fpLen + fpVal : Nat) : Int))
      (10 ^ fpLen))
  | e :: rest =>
    if e = 'e' ∨ e = 'E' then
      let se : Int × List Char :=
        match rest with
        | '+' :: r => (1, r)
        | '-' :: r => (-1, r)
        | r => (1, r)
      let ed := se.2.takeWhile (fun c => c.isDigit)
      if ed = [] ∨ se.2.dropWhile (fun c => c.isDigit) ≠ [] then none
      else if se.1 = 1 then
        some (mkRat (sgn *
          (((ipVal * 10 ^ fpLen + fpVal) * 10 ^ digitsVal ed : Nat) : Int))
          (10 ^ fpLen))
      else
        some (mkRat (sgn * ((ipVal * 10 ^ fpLen + fpVal : Nat) : Int))
          (10 ^ fpLen * 10 ^ digitsVal ed))
    else none

/-- Unsigned decimal literal of the Number() grammar with its sign already
read: digits with an optional fraction and an optional exponent; the whole
list must be consumed, and at least one digit must be present. -/
def parseDecLit (sgn : Int) (l : List Char) : Option ℚ :=
  let ip := l.takeWhile (fun c => c.isDigit)
  let rest1 := l.dropWhile (fun c => c.isDigit)
  match rest1 with
  | '.' :: rest2 =>
    let fp := rest2.takeWhile (fun c => c.isDigit)
    let rest3 := rest2.dropWhile (fun c => c.isDigit)
    if ip = [] ∧ fp = [] then none
    else parseExpPart sgn (digitsVal ip) (digitsVal fp) fp.length rest3
  | _ =>
    if ip = [] then none
    else parseExpPart sgn (digitsVal ip) 0 0 rest1

/-- Signed part of the Number() coercion: an optional sign, then either the
Infinity literal — a non-finite value, collapsed to none together with NaN —
or a decimal literal. -/
def parseSigned (l : List Char) : Option ℚ :=
  match l with
  | '+' :: rest => if rest = infinityChars then none else parseDecLit 1 rest
  | '-' :: rest => if rest = infinityChars then none else parseDecLit (-1) rest
  | _ => if l = infinityChars then none else parseDecLit 1 l

/-- JavaScript Number() coercion of a query-string value, as the subtraction
and multiplication of the skip computation apply it: whitespace is trimmed;
the empty string coerces to 0; a 0x, 0b or 0o prefixed literal (unsigned, as
in the grammar) to its value in that base; otherwise an optionally signed
decimal literal with optional fraction and exponent. none stands for the
absence of a finite value — NaN, or the infinities, which the rational model
does not distinguish. Rationals stand in for JavaScript doubles. -/
def jsNumber (s : String) : Option ℚ :=
  match trimWs s.toList with
  | [] => some 0
  | '0' :: x :: rest =>
    if x = 'x' ∨ x = 'X' then
      if rest ≠ [] ∧ rest.all isHexDigit then
        some (mkRat ((digitsValBase 16 rest : Nat) : Int) 1)
      else none
    else if x = 'b' ∨ x = 'B' then
      if rest ≠ [] ∧ rest.all (fun c => c == '0' || c == '1') then
        some (mkRat ((digitsValBase 2 rest : Nat) : Int) 1)
      else none
    else if x = 'o' ∨ x = 'O' then
      if rest ≠ [] ∧ rest.all (fun c => decide ('0' ≤ c) && decide (c ≤ '7')) then
        some (mkRat ((digitsValBase 8 rest : Nat) : Int) 1)
      else none
    else parseSigned ('0' :: x :: rest)
  | l => parseSigned l

/-- JavaScript parseInt (radix unspecified) on a query-string value: leading
whitespace is skipped, an optional sign read, a 0x or 0X prefix selects
hexadecimal, and the longest leading run of digits of the selected base is
converted; no digits means NaN (none). -/
def jsParseInt (s : String) : Option Int :=
  let l := s.toList.dropWhile (fun c => c.isWhitespace)
  let sl : Int × List Char :=
    match l with
    | '+' :: r => (1, r)
    | '-' :: r => (-1, r)
    | r => (1, r)
  match sl.2 with
  | '0' :: x :: rest =>
    if x = 'x' ∨ x = 'X' then
      let hd := rest.takeWhile isHexDigit
      if hd = [] then none else some (sl.1 * (digitsValBase 16 hd : Int))
    else
      let dd := ('0' :: x :: rest).takeWhile (fun c => c.isDigit)
      if dd = [] then none else some (sl.1 * (digitsVal dd : Int))
  | l2 =>
    let dd := l2.takeWhile (fun c => c.isDigit)
    if dd = [] then none else some (sl.1 * (digitsVal dd : Int))

/-- Numeric page value entering the skip computation: the destructuring
default 1 applies only when the parameter is absent; a supplied string is
coerced by the subtraction. -/
def pageNumber (page : Option String) : Option ℚ :=
  match page with
  | none => some 1
  | some s => jsNumber s

/-- Numeric limit value entering the skip computation: the destructuring
default 10 applies only when the parameter is absent. -/
def limitNumber (lim : Option String) : Option ℚ :=
  match lim with
  | none => some 10
  | some s => jsNumber s

/-- The skip count handed to the persistence layer, from
`(page - 1) * limit`; the absence of a finite value propagates. -/
def effectiveSkip (page lim : Option String) : Option ℚ :=
  match pageNumber page, limitNumber lim with
  | some p, some l => some ((p - 1) * l)
  | _, _ => none

/-- The page-size handed to the persistence layer, from `parseInt(limit)`
with the destructuring default 10 when the parameter is absent. -/
def effectiveLimit (lim : Option String) : Option Int :=
  match lim with
  | none => some 10
  | some s => jsParseInt s

/-- The status filter of the list handler: absent, empty or the sentinel all
means no filter; a comma-separated value matches any of its trimmed parts;
any other value matches exactly. -/
def statusFilter (status : Option String) : Option (List String) :=
  match status with
  | none => none
  | some s =>
    if s != "" && s != "all" then
      if s.contains ',' then some ((s.splitOn ",").map (fun x => x.trim))
      else some [s]
    else none

/-- The priority filter of the list handler: absent, empty or the sentinel
all means no filter. -/
def priorityFilter (p : Option String) : Option String :=
  match p with
  | none => none
  | some s => if s != "" && s != "all" then some s else none

/-- The category filter of the list handler: absent, empty or the sentinel
all means no filter. -/
def categoryFilter (c : Option String) : Option String :=
  match c with
  | none => none
  | some s => if s != "" && s != "all" then some s else none

/-- Count of tasks in a group with the given status, from the conditional
sums of the aggregation pipelines. -/
def countStatus (ts : List Task) (st : String) : Int :=
  ((ts.filter (fun t => t.status == st)).length : Int)

/-- Rounding used by the aggregation round operator: round half to even. -/
def roundHalfEven (x : ℚ) : Int :=
  if x - ⌊x⌋ < 1 / 2 then ⌊x⌋
  else if 1 / 2 < x - ⌊x⌋ then ⌊x⌋ + 1
  else if ⌊x⌋ % 2 = 0 then ⌊x⌋ else ⌊x⌋ + 1

/-- Rounding to two decimal places, from the aggregation round operator with
place 2. -/
def round2 (x : ℚ) : ℚ := (roundHalfEven (x * 100) : ℚ) / 100

/-- One row of the employee-summary aggregation: the fields projected by the
employee-summary pipeline that later stages read. -/
structure SummaryRow where
  name : String
  totalTasks : Int
  completedTasks : Int
  inProgressTasks : Int
  overdueTasks : Int
  totalEstimatedHours : ℚ
  totalActualHours : ℚ
  avgProgress : ℚ
  completionRate : ℚ
  efficiency : Option ℚ
deriving DecidableEq

/-- One row of the by-employee aggregation: its projection carries the counts
and an unrounded completion rate, and no efficiency field. -/
structure ByEmployeeRow where
  name : String
  totalTasks : Int
  completedTasks : Int
  inProgressTasks : Int
  overdueTasks : Int
  completionRate : ℚ
deriving DecidableEq

/-- Group and project stages of the employee-summary pipeline applied to one
employee's nonempty task group. The average of progress divides by the group
size; the conditional guards on totalTasks and on the hour totals are those
of the pipeline's project stage. -/
def mkSummaryRow (name : String) (ts : List Task) : SummaryRow :=
  let total : Int := (ts.length : Int)
  let completed := countStatus ts "completed"
  let est := (ts.map (fun t => t.estimatedHours)).sum
  let act := (ts.map (fun t => t.actualHours)).sum
  { name := name
    totalTasks := total
    completedTasks := completed
    inProgressTasks := countStatus ts "in-progress"
    overdueTasks := countStatus ts "overdue"
    totalEstimatedHours := est
    totalActualHours := act
    avgProgress := round2 ((ts.map (fun t => t.progress)).sum / (total : ℚ))
    completionRate :=
      if 0 < total then round2 ((completed : ℚ) / (total : ℚ) * 100) else 0
    efficiency :=
      if 0 < est ∧ 0 < act then some (round2 (est / act * 100)) else none }

/-- Group and project stages of the by-employee pipeline applied to one
employee's nonempty task group: counts and an unrounded completion rate. -/
def mkByEmployeeRow (name : String) (ts : List Task) : ByEmployeeRow :=
  let total : Int := (ts.length : Int)
  let completed := countStatus ts "completed"
  { name := name
    totalTasks := total
    completedTasks := completed
    inProgressTasks := countStatus ts "in-progress"
    overdueTasks := countStatus ts "overdue"
    completionRate :=
      if 0 < total then (completed : ℚ) / (total : ℚ) * 100 else 0 }

/-- Distinct assignee keys of a task list, in order of first appearance,
standing in for the grouping key set of the group stage. -/
def groupKeys (ts : List Task) : List String :=
  (ts.map (fun t => t.assignedTo)).dedup

/-- Sort order of the employee-summary pipeline: completion rate descending,
ties broken by employee name ascending. -/
def summaryLE (a b : SummaryRow) : Prop :=
  b.completionRate < a.completionRate ∨
    (a.completionRate = b.completionRate ∧ a.name ≤ b.name)

instance : DecidableRel summaryLE := fun a b => by
  unfold summaryLE; infer_instance

instance : IsTotal SummaryRow summaryLE where
  total a b := by
    unfold summaryLE
    rcases lt_trichotomy a.completionRate b.completionRate with h | h | h
    · exact Or.inr (Or.inl h)
    · rcases le_total a.name b.name with hn | hn
      · exact Or.inl (Or.inr ⟨h, hn⟩)
      · exact Or.inr (Or.inr ⟨h.symm, hn⟩)
    · exact Or.inl (Or.inl h)

instance : IsTrans SummaryRow summaryLE where
  trans a b c hab hbc := by
    unfold summaryLE at *
    rcases hab with hab | ⟨hab1, hab2⟩
    · rcases hbc with hbc | ⟨hbc1, hbc2⟩
      · exact Or.inl (hbc.trans hab)
      · exact Or.inl (hbc1 ▸ hab)
    · rcases hbc with hbc | ⟨hbc1, hbc2⟩
      · exact Or.inl (hab1 ▸ hbc)
      · exact Or.inr ⟨hab1.trans hbc1, hab2.trans hbc2⟩

/-- Sort order of the by-employee pipeline: employee name ascending only. -/
def byEmployeeLE (a b : ByEmployeeRow) : Prop := a.name ≤ b.name

instance : DecidableRel byEmployeeLE := fun a b => by
  unfold byEmployeeLE; infer_instance

instance : IsTotal ByEmployeeRow byEmployeeLE where
  total a b := le_total a.name b.name

instance : IsTrans ByEmployeeRow byEmployeeLE where
  trans _ _ _ hab hbc := le_trans hab hbc

/-- The employee-summary aggregation over the matched tasks: the user lookup
and unwind stages drop tasks whose assignee resolves to no user, the group
stage produces one nonempty group per remaining assignee, the project stage
computes the summary fields, and the sort stage orders by completion rate
descending then name ascending. -/
def employeeSummary (ts : List Task) (userName : String → Option String) :
    List SummaryRow :=
  let live := ts.filter (fun t => (userName t.assignedTo).isSome)
  let rows := (groupKeys live).map (fun k =>
    mkSummaryRow ((userName k).getD "") (live.filter (fun t => t.assignedTo == k)))
  List.insertionSort summaryLE rows

/-- The by-employee aggregation over the matched tasks: same lookup, unwind
and group structure as the summary, a projection without efficiency, and a
sort by employee name ascending. -/
def tasksByEmployee (ts : List Task) (userName : String → Option String) :
    List ByEmployeeRow :=
  let live := ts.filter (fun t => (userName t.assignedTo).isSome)
  let rows := (groupKeys live).map (fun k =>
    mkByEmployeeRow ((userName k).getD "") (live.filter (fun t => t.assignedTo == k)))
  List.insertionSort byEmployeeLE rows

/-- A concrete stored task used by the witnesses and counterexamples. -/
def sampleTask : Task :=
  { title := "t", description := "d", priority := "low", assignedTo := "e1",
    assignedBy := "a1", dueDate := 0, estimatedHours := 2, actualHours := 1,
    category := "other", tags := [], status := "completed", progress := 100,
    dependencies := [], completionReason := "", completedAt := some 3,
    comments := [], timeTracking := [] }

/-- A concrete pending task assigned to a second employee. -/
def pendingTask : Task :=
  { sampleTask with
    assignedTo := "e2", status := "pending", progress := 0,
    completedAt := none }

/-- A concrete employee-name directory for the aggregation examples. -/
def demoNames (k : String) : Option String :=
  if k = "e1" then some "zoe" else if k = "e2" then some "amy" else none

/-- A concrete creation request body used by the witnesses. -/
def sampleBody : CreateBody :=
  { title := "t", description := "d", priority := "high", assignedTo := "e1",
    dueDate := 0, estimatedHours := none, category := "design", tags := [],
    dependencies := [], isRecurring := none, recurringPattern := none,
    assignedBy := none }

theorem lookupVal_nil (k : String) : lookupVal [] k = none := rfl

theorem lookupVal_cons (kv : String × Value) (rest : Body) (k : String) :
    lookupVal (kv :: rest) k =
      if kv.1 = k then some kv.2 else lookupVal rest k := by
  by_cases h : kv.1 = k
  · simp [lookupVal, List.find?_cons_of_pos, h]
  · simp [lookupVal, List.find?_cons_of_neg, h]

theorem lookupVal_filter (body : Body) (pred : String → Bool) (k : String)
    (hk : pred k = true) :
    lookupVal (body.filter (fun kv => pred kv.1)) k = lookupVal body k := by
  induction body with
  | nil => rfl
  | cons kv rest ih =>
    by_cases hp : pred kv.1 = true
    · simp only [List.filter_cons, hp, if_true]
      rw [lookupVal_cons, lookupVal_cons, ih]
    · have hp' : pred kv.1 = false := by simpa using hp
      have hne : kv.1 ≠ k := fun he => by
        rw [he, hk] at hp'
        exact absurd hp' (by decide)
      simp only [List.filter_cons, hp', Bool.false_eq_true, if_false]
      rw [ih, lookupVal_cons, if_neg hne]

theorem lookupVal_filter_none (body : Body) (pred : String → Bool) (k : String)
    (hk : pred k = false) :
    lookupVal (body.filter (fun kv => pred kv.1)) k = none := by
  induction body with
  | nil => rfl
  | cons kv rest ih =>
    by_cases hp : pred kv.1 = true
    · have hne : kv.1 ≠ k := fun he => by
        rw [he, hk] at hp
        exact absurd hp (by decide)
      simp only [List.filter_cons, hp, if_true]
      rw [lookupVal_cons, if_neg hne, ih]
    · have hp' : pred kv.1 = false := by simpa using hp
      simp only [List.filter_cons, hp', Bool.false_eq_true, if_false]
      exact ih

theorem lookupVal_append (l1 l2 : Body) (k : String) :
    lookupVal (l1 ++ l2) k =
      match lookupVal l1 k with
      | some v => some v
      | none => lookupVal l2 k := by
  induction l1 with
  | nil => simp [lookupVal_nil]
  | cons kv rest ih =>
    by_cases h : kv.1 = k
    · simp [lookupVal_cons, h, ih]
    · simp [lookupVal_cons, h, ih]

theorem lookupVal_setKey_self (us : Body) (k : String) (v : Value) :
    lookupVal (setKey us k v) k = some v := by
  rw [setKey, lookupVal_append]
  rw [lookupVal_filter_none us (fun x => x != k) k (by simp)]
  simp [lookupVal_cons]

theorem lookupVal_setKey_other (us : Body) (k k2 : String) (v : Value)
    (h : k2 ≠ k) : lookupVal (setKey us k v) k2 = lookupVal us k2 := by
  rw [setKey, lookupVal_append]
  rw [show us.filter (fun kv => kv.1 != k) =
      us.filter (fun kv => (fun x => x != k) kv.1) from rfl]
  rw [lookupVal_filter us (fun x => x != k) k2 (by simpa using h)]
  cases hl : lookupVal us k2 with
  | some w => rfl
  | none =>
    show lookupVal [(k, v)] k2 = none
    rw [lookupVal_cons, if_neg (fun he : (k, v).1 = k2 => h he.symm)]
    rfl

theorem mem_allowedUpdates_status (b : Bool) :
    (allowedUpdates b).contains "status" = true := by
  cases b <;> decide

theorem mem_allowedUpdates_progress (b : Bool) :
    (allowedUpdates b).contains "progress" = true := by
  cases b <;> decide

theorem not_mem_allowedUpdates_completedAt (b : Bool) :
    (allowedUpdates b).contains "completedAt" = false := by
  cases b <;> decide

theorem putTask_denied_iff (task : Task) (user : Caller) (body : Body)
    (now : ℚ) :
    putTask (some task) user body now = UpdateResult.accessDenied ↔
      (isAdminOrHR user.role = false ∧ task.assignedTo ≠ user.id) := by
  unfold putTask
  by_cases ha : isAdminOrHR user.role
  · simp [ha]
  · by_cases hb : task.assignedTo = user.id
    · simp [ha, hb]
    · simp [ha, hb]

theorem putTask_ok_inv (task : Task) (user : Caller) (body : Body) (now : ℚ)
    (t' : Task) (h : putTask (some task) user body now = UpdateResult.ok t') :
    t' = applyToTask task
      (applyCompletion (filterAllowed (isAdminOrHR user.role) body) now) := by
  unfold putTask at h
  by_cases ha : isAdminOrHR user.role
  · rw [ha]
    simp [ha] at h
    exact h.symm
  · have ha' : isAdminOrHR user.role = false := by simpa using ha
    rw [ha']
    by_cases hb : task.assignedTo = user.id
    · simp [ha', hb] at h
      exact h.symm
    · simp [ha', beq_iff_eq, hb] at h

theorem putTask_authorized (task : Task) (user : Caller) (body : Body)
    (now : ℚ) (h : isAdminOrHR user.role = true ∨ task.assignedTo = user.id) :
    putTask (some task) user body now =
      UpdateResult.ok (applyToTask task
        (applyCompletion (filterAllowed (isAdminOrHR user.role) body) now)) := by
  unfold putTask
  rcases h with h | h
  · simp [h]
  · by_cases ha : isAdminOrHR user.role
    · simp [ha]
    · simp [ha, h]

theorem lookupVal_filterAllowed_eq (b : Bool) (body : Body) (k : String)
    (hk : (allowedUpdates b).contains k = true) :
    lookupVal (filterAllowed b body) k = lookupVal body k :=
  lookupVal_filter body (fun x => (allowedUpdates b).contains x) k hk

theorem lookupVal_filterAllowed_none (b : Bool) (body : Body) (k : String)
    (hk : (allowedUpdates b).contains k = false) :
    lookupVal (filterAllowed b body) k = none :=
  lookupVal_filter_none body (fun x => (allowedUpdates b).contains x) k hk

theorem applyUpdates_completed (task : Task) (b : Bool) (body : Body)
    (now : ℚ) (hst : lookupVal body "status" = some (Value.str "completed")) :
    (applyToTask task (applyCompletion (filterAllowed b body) now)).progress = 100 ∧
    (applyToTask task (applyCompletion (filterAllowed b body) now)).completedAt =
      some now := by
  unfold applyCompletion
  rw [lookupVal_filterAllowed_eq b body "status" (mem_allowedUpdates_status b),
    if_pos hst]
  constructor
  · show getNum _ "progress" task.progress = 100
    unfold getNum
    rw [lookupVal_setKey_self]
  · show getNumOpt _ "completedAt" task.completedAt = some now
    unfold getNumOpt
    rw [lookupVal_setKey_other _ _ _ _ (by decide), lookupVal_setKey_self]

theorem applyCompletion_not_completed (b : Bool) (body : Body) (now : ℚ)
    (hst : ¬ lookupVal body "status" = some (Value.str "completed")) :
    applyCompletion (filterAllowed b body) now = filterAllowed b body := by
  unfold applyCompletion
  rw [lookupVal_filterAllowed_eq b body "status" (mem_allowedUpdates_status b),
    if_neg hst]

theorem applyToTask_completedAt_untouched (task : Task) (b : Bool)
    (body : Body) :
    (applyToTask task (filterAllowed b body)).completedAt = task.completedAt := by
  show getNumOpt _ "completedAt" task.completedAt = task.completedAt
  unfold getNumOpt
  rw [lookupVal_filterAllowed_none b body "completedAt"
    (not_mem_allowedUpdates_completedAt b)]

theorem applyToTask_progress_from_body (task : Task) (b : Bool) (body : Body) :
    (∀ v : ℚ, lookupVal body "progress" = some (Value.num v) →
      (applyToTask task (filterAllowed b body)).progress = v) ∧
    (lookupVal body "progress" = none →
      (applyToTask task (filterAllowed b body)).progress = task.progress) := by
  constructor
  · intro v hv
    show getNum _ "progress" task.progress = v
    unfold getNum
    rw [lookupVal_filterAllowed_eq b body "progress"
      (mem_allowedUpdates_progress b), hv]
  · intro hv
    show getNum _ "progress" task.progress = task.progress
    unfold getNum
    rw [lookupVal_filterAllowed_eq b body "progress"
      (mem_allowedUpdates_progress b), hv]

theorem addComment_ok_inv (stored : Option Task) (user : Caller)
    (text : String) (t2 : Task)
    (h : addComment stored user text = CommentResult.ok t2) :
    ∃ task, stored = some task ∧
      t2 = { task with comments := task.comments ++ [⟨user.id, text⟩] } := by
  cases stored with
  | none =>
    unfold addComment at h
    split at h
    · simp at h
    · simp at h
  | some task =>
    have h2 : (if text = "" then CommentResult.validationError
        else if (!isAdminOrHR user.role && !(task.assignedTo == user.id) &&
          !(task.assignedBy == user.id)) = true then CommentResult.accessDenied
        else CommentResult.ok
          { task with comments := task.comments ++ [⟨user.id, text⟩] }) =
        CommentResult.ok t2 := h
    split at h2
    · simp at h2
    · split at h2
      · simp at h2
      · refine ⟨task, rfl, ?_⟩
        cases h2
        rfl

theorem addTimeEntry_ok_inv (stored : Option Task) (user : Caller)
    (startMs endMs : ℚ) (d : Option String) (t3 : Task)
    (h : addTimeEntry stored user startMs endMs d = TimeTrackResult.ok t3) :
    ∃ task, stored = some task ∧
      t3 = { task with timeTracking := task.timeTracking ++
        [⟨startMs, endMs, timeDuration startMs endMs, d, dateOfMs startMs⟩] } := by
  cases stored with
  | none => simp [addTimeEntry] at h
  | some task =>
    have h2 : (if (task.assignedTo != user.id) = true then
          TimeTrackResult.accessDenied
        else if timeDuration startMs endMs ≤ 0 then
          TimeTrackResult.validationError
        else TimeTrackResult.ok { task with timeTracking := task.timeTracking ++
          [⟨startMs, endMs, timeDuration startMs endMs, d, dateOfMs startMs⟩] }) =
        TimeTrackResult.ok t3 := h
    split at h2
    · simp at h2
    · split at h2
      · simp at h2
      · refine ⟨task, rfl, ?_⟩
        cases h2
        rfl

/-- C1: for every list-tasks request, the assignedTo component of the
visibility predicate is the caller's id when the caller's role is not admin
or hr (any supplied assignee filter is ignored, never an error); the supplied
assignee when the caller is admin or hr and an explicit assignee filter is
present; and the caller's id when the caller is admin or hr and no assignee
filter is supplied. -/
theorem c1_list_visibility (user : Caller) (assignedTo : Option String) :
    (isAdminOrHR user.role = false →
      taskListAssignedTo user assignedTo = user.id) ∧
    (isAdminOrHR user.role = true → ∀ a : String, a ≠ "" →
      assignedTo = some a → taskListAssignedTo user assignedTo = a) ∧
    (isAdminOrHR user.role = true → assignedTo = none →
      taskListAssignedTo user assignedTo = user.id) := by
  refine ⟨fun h => ?_, fun h a ha hs => ?_, fun h hn => ?_⟩
  · simp [taskListAssignedTo, h]
  · subst hs
    simp [taskListAssignedTo, truthy, h, ha]
  · subst hn
    simp [taskListAssignedTo, truthy, h]

/-- Witness for C1 at concrete callers: an employee listing with an explicit
assignee filter still sees their own tasks; an admin with a filter sees the
filtered assignee; an hr caller without a filter sees their own tasks. -/
theorem c1_list_visibility_witness :
    taskListAssignedTo ⟨"e1", "employee"⟩ (some "e2") = "e1" ∧
    taskListAssignedTo ⟨"a1", "admin"⟩ (some "e2") = "e2" ∧
    taskListAssignedTo ⟨"h1", "hr"⟩ none = "h1" :=
  ⟨(c1_list_visibility ⟨"e1", "employee"⟩ (some "e2")).1 (by decide),
    (c1_list_visibility ⟨"a1", "admin"⟩ (some "e2")).2.1 (by decide) "e2"
      (by decide) rfl,
    (c1_list_visibility ⟨"h1", "hr"⟩ none).2.2 (by decide) rfl⟩

/-- C2: for every update of an existing task in which the applied field set
sets status to completed, the persisted task has progress 100 and completedAt
equal to the transition time, regardless of any progress value the caller
supplied in the same request. -/
theorem c2_completed_forces_progress (task : Task) (user : Caller)
    (body : Body) (now : ℚ) (t' : Task)
    (hok : putTask (some task) user body now = UpdateResult.ok t')
    (hst : lookupVal body "status" = some (Value.str "completed")) :
    t'.progress = 100 ∧ t'.completedAt = some now := by
  have ht := putTask_ok_inv task user body now t' hok
  subst ht
  exact applyUpdates_completed task (isAdminOrHR user.role) body now hst

/-- Witness for C2: the assignee completes a pending task while supplying
progress 40; the stored task ends with progress 100 and completedAt equal to
the update time 7. -/
theorem c2_completed_forces_progress_witness :
    ({ pendingTask with
        status := "completed", progress := 100,
        completedAt := some 7 } : Task).progress = 100 ∧
    ({ pendingTask with
        status := "completed", progress := 100,
        completedAt := some 7 } : Task).completedAt = some 7 :=
  c2_completed_forces_progress pendingTask ⟨"e2", "employee"⟩
    [("status", Value.str "completed"), ("progress", Value.num 40)] 7
    { pendingTask with
      status := "completed", progress := 100, completedAt := some 7 }
    (by decide) (by decide)

/-- C3: for every update request on an existing task, the operation signals
access-denied (changing no field) exactly when the caller is neither admin or
hr nor the task's assignee; otherwise it succeeds, applying exactly the keys
present in both the request body and the caller's role-determined allow-set,
while every other supplied key is silently dropped without an error. -/
theorem c3_update_allow_sets (task : Task) (user : Caller) (body : Body)
    (now : ℚ) :
    (putTask (some task) user body now = UpdateResult.accessDenied ↔
      (isAdminOrHR user.role = false ∧ task.assignedTo ≠ user.id)) ∧
    ((isAdminOrHR user.role = true ∨ task.assignedTo = user.id) →
      putTask (some task) user body now =
        UpdateResult.ok (applyToTask task
          (applyCompletion (filterAllowed (isAdminOrHR user.role) body) now))) ∧
    (∀ k v, (k, v) ∈ filterAllowed (isAdminOrHR user.role) body ↔
      ((k, v) ∈ body ∧ k ∈
        (if isAdminOrHR user.role = true then
          ["title", "description", "priority", "assignedTo", "dueDate",
           "estimatedHours", "category", "tags", "status", "progress",
           "dependencies", "completionReason"]
        else ["status", "progress", "actualHours", "completionReason"]))) := by
  refine ⟨putTask_denied_iff task user body now,
    putTask_authorized task user body now, fun k v => ?_⟩
  unfold filterAllowed allowedUpdates adminAllowedUpdates assigneeAllowedUpdates
  rw [List.mem_filter]
  cases isAdminOrHR user.role <;>
    simp [List.elem_iff]

/-- Witness for C3: a stranger's update is denied; an assignee employee
supplying only priority has it dropped and the task is returned unchanged;
priority is not among the keys the filter keeps for an employee. -/
theorem c3_update_allow_sets_witness :
    putTask (some sampleTask) ⟨"x", "employee"⟩ [] 0 =
      UpdateResult.accessDenied ∧
    putTask (some sampleTask) ⟨"e1", "employee"⟩
      [("priority", Value.str "urgent")] 0 = UpdateResult.ok sampleTask ∧
    ¬ (("priority", Value.str "urgent") ∈
        filterAllowed (isAdminOrHR "employee")
          [("priority", Value.str "urgent")]) :=
  ⟨(c3_update_allow_sets sampleTask ⟨"x", "employee"⟩ [] 0).1.mpr
      ⟨by decide, by decide⟩,
    ((c3_update_allow_sets sampleTask ⟨"e1", "employee"⟩
        [("priority", Value.str "urgent")] 0).2.1 (Or.inr (by decide))).trans
      (by decide),
    fun hmem => absurd
      (((c3_update_allow_sets sampleTask ⟨"e1", "employee"⟩
        [("priority", Value.str "urgent")] 0).2.2 "priority"
        (Value.str "urgent")).mp hmem).2 (by decide)⟩

/-- C10: for every update of an existing task whose applied field set does
not set status to completed — including one that moves status from completed
back to another value — completedAt is left exactly as it was, and progress
is never forced: it is the caller-supplied value when supplied and the stored
value otherwise. -/
theorem c10_frame_no_completion (task : Task) (user : Caller) (body : Body)
    (now : ℚ) (t' : Task)
    (hok : putTask (some task) user body now = UpdateResult.ok t')
    (hst : lookupVal body "status" ≠ some (Value.str "completed")) :
    t'.completedAt = task.completedAt ∧
    (∀ v : ℚ, lookupVal body "progress" = some (Value.num v) →
      t'.progress = v) ∧
    (lookupVal body "progress" = none → t'.progress = task.progress) := by
  have ht := putTask_ok_inv task user body now t' hok
  subst ht
  rw [applyCompletion_not_completed (isAdminOrHR user.role) body now hst]
  exact ⟨applyToTask_completedAt_untouched task (isAdminOrHR user.role) body,
    (applyToTask_progress_from_body task (isAdminOrHR user.role) body).1,
    (applyToTask_progress_from_body task (isAdminOrHR user.role) body).2⟩

/-- Witness for C10: an admin moves a completed task back to pending with
progress 20; completedAt keeps its stored value 3 and progress becomes the
supplied 20. -/
theorem c10_frame_no_completion_witness :
    ({ sampleTask with status := "pending", progress := 20 } : Task).completedAt =
      sampleTask.completedAt ∧
    ({ sampleTask with status := "pending", progress := 20 } : Task).progress = 20 :=
  have h := c10_frame_no_completion sampleTask ⟨"a1", "admin"⟩
    [("status", Value.str "pending"), ("progress", Value.num 20)] 9
    { sampleTask with status := "pending", progress := 20 }
    (by decide) (by decide)
  ⟨h.1, h.2.1 20 (by decide)⟩

/-- C6 as stated fails on the code: sampleTask is already completed with
completedAt 3, yet re-submitting status completed at time 5 re-assigns
completedAt to 5, so completedAt is not set exactly once. -/
theorem c6_counterexample :
    putTask (some sampleTask) ⟨"a1", "admin"⟩
      [("status", Value.str "completed")] 5 =
      UpdateResult.ok { sampleTask with completedAt := some 5 } ∧
    sampleTask.completedAt = some 3 ∧ some (3 : ℚ) ≠ some (5 : ℚ) :=
  ⟨by decide, rfl, by decide⟩

/-- C6 (amended): completedAt is stamped with the update time by every update
whose applied field set sets status to completed — also when the task is
already completed, so it can be re-assigned with a different value — is left
unchanged by every update that does not, and is never modified by a comment
or time-entry append; no operation clears it. -/
theorem c6_completedAt_stamping (task : Task) (user : Caller) (body : Body)
    (now : ℚ) (text : String) (startMs endMs : ℚ) (d : Option String) :
    (∀ t', putTask (some task) user body now = UpdateResult.ok t' →
      ((lookupVal body "status" = some (Value.str "completed") →
        t'.completedAt = some now) ∧
       (lookupVal body "status" ≠ some (Value.str "completed") →
        t'.completedAt = task.completedAt))) ∧
    (∀ t2, addComment (some task) user text = CommentResult.ok t2 →
      t2.completedAt = task.completedAt) ∧
    (∀ t3, addTimeEntry (some task) user startMs endMs d = TimeTrackResult.ok t3 →
      t3.completedAt = task.completedAt) := by
  refine ⟨fun t' hok => ⟨fun hst => ?_, fun hst => ?_⟩,
    fun t2 h2 => ?_, fun t3 h3 => ?_⟩
  · have ht := putTask_ok_inv task user body now t' hok
    subst ht
    exact (applyUpdates_completed task (isAdminOrHR user.role) body now hst).2
  · have ht := putTask_ok_inv task user body now t' hok
    subst ht
    rw [applyCompletion_not_completed (isAdminOrHR user.role) body now hst]
    exact applyToTask_completedAt_untouched task (isAdminOrHR user.role) body
  · obtain ⟨task2, hs, ht2⟩ := addComment_ok_inv (some task) user text t2 h2
    cases hs
    rw [ht2]
  · obtain ⟨task3, hs, ht3⟩ := addTimeEntry_ok_inv (some task) user startMs
      endMs d t3 h3
    cases hs
    rw [ht3]

/-- Witness for C6 (amended): completing the pending task at time 7 stamps
completedAt 7; appending a comment to the completed sampleTask leaves its
completedAt 3 unchanged. -/
theorem c6_completedAt_stamping_witness :
    ({ pendingTask with
        status := "completed", progress := 100,
        completedAt := some 7 } : Task).completedAt = some 7 ∧
    ({ sampleTask with
        comments := sampleTask.comments ++ [⟨"e1", "hi"⟩] } : Task).completedAt =
      sampleTask.completedAt :=
  ⟨((c6_completedAt_stamping pendingTask ⟨"e2", "employee"⟩
      [("status", Value.str "completed")] 7 "hi" 0 0 none).1
      { pendingTask with
        status := "completed", progress := 100, completedAt := some 7 }
      (by decide)).1 (by decide),
    (c6_completedAt_stamping sampleTask ⟨"e1", "employee"⟩ [] 0 "hi" 0 0 none).2.1
      { sampleTask with comments := sampleTask.comments ++ [⟨"e1", "hi"⟩] }
      (by decide)⟩

/-- C4 as stated fails on the code: the delete route's admin-only authorize
middleware runs before the task lookup, so an employee-role caller deleting a
nonexistent task id receives access-denied, not not-found. -/
theorem c4_counterexample :
    deleteTask none ⟨"e1", "employee"⟩ = DeleteResult.accessDenied ∧
    deleteTask none ⟨"e1", "employee"⟩ ≠ DeleteResult.notFound := by
  decide

/-- C4 (amended): for the single-task read, update, comment and time-entry
operations, a nonexistent task id signals not-found before authorization is
evaluated and access-denied is only ever signalled for an existing task; for
delete, the admin role gate is middleware evaluated before the existence
check, so an admin caller gets not-found on a nonexistent id while a
non-admin caller gets access-denied regardless of existence. -/
theorem c4_not_found_before_authorization (user : Caller) (text : String)
    (body : Body) (now startMs endMs : ℚ) (d : Option String) :
    getTask none user = ReadResult.notFound ∧
    putTask none user body now = UpdateResult.notFound ∧
    (text ≠ "" → addComment none user text = CommentResult.notFound) ∧
    addTimeEntry none user startMs endMs d = TimeTrackResult.notFound ∧
    (∀ stored, getTask stored user = ReadResult.accessDenied →
      ∃ t, stored = some t) ∧
    (∀ stored, putTask stored user body now = UpdateResult.accessDenied →
      ∃ t, stored = some t) ∧
    (∀ stored, addComment stored user text = CommentResult.accessDenied →
      ∃ t, stored = some t) ∧
    (∀ stored, addTimeEntry stored user startMs endMs d =
      TimeTrackResult.accessDenied → ∃ t, stored = some t) ∧
    (user.role = "admin" → deleteTask none user = DeleteResult.notFound) ∧
    (user.role ≠ "admin" → ∀ stored,
      deleteTask stored user = DeleteResult.accessDenied) := by
  refine ⟨rfl, rfl, fun ht => ?_, rfl, fun stored h => ?_, fun stored h => ?_,
    fun stored h => ?_, fun stored h => ?_, fun hr => ?_, fun hr stored => ?_⟩
  · unfold addComment
    rw [if_neg ht]
  · cases stored with
    | none => simp [getTask] at h
    | some t => exact ⟨t, rfl⟩
  · cases stored with
    | none => simp [putTask] at h
    | some t => exact ⟨t, rfl⟩
  · cases stored with
    | none =>
      unfold addComment at h
      split at h
      · simp at h
      · simp at h
    | some t => exact ⟨t, rfl⟩
  · cases stored with
    | none => simp [addTimeEntry] at h
    | some t => exact ⟨t, rfl⟩
  · simp [deleteTask, authorize, hr]
  · simp [deleteTask, authorize, hr]

/-- Witness for C4 (amended): an admin deleting a missing task sees
not-found; an hr caller deleting an existing task is denied by the role
gate; a comment on a missing task by an admin reports not-found; an
employee who is a stranger to an existing task is denied the read only
because the task exists. -/
theorem c4_not_found_before_authorization_witness :
    addComment none ⟨"a1", "admin"⟩ "hi" = CommentResult.notFound ∧
    deleteTask none ⟨"a1", "admin"⟩ = DeleteResult.notFound ∧
    deleteTask (some sampleTask) ⟨"h1", "hr"⟩ = DeleteResult.accessDenied ∧
    (∃ t, some sampleTask = some t) :=
  ⟨(c4_not_found_before_authorization ⟨"a1", "admin"⟩ "hi" [] 0 0 0 none).2.2.1
      (by decide),
    (c4_not_found_before_authorization ⟨"a1", "admin"⟩ "hi" [] 0 0 0
      none).2.2.2.2.2.2.2.2.1 rfl,
    (c4_not_found_before_authorization ⟨"h1", "hr"⟩ "hi" [] 0 0 0
      none).2.2.2.2.2.2.2.2.2 (by decide) (some sampleTask),
    (c4_not_found_before_authorization ⟨"x", "employee"⟩ "hi" [] 0 0 0
      none).2.2.2.2.1 (some sampleTask) (by decide)⟩

theorem timeDuration_nonpos_iff (startMs endMs : ℚ) :
    timeDuration startMs endMs ≤ 0 ↔ endMs - startMs < 30000 := by
  unfold timeDuration jsRound
  constructor
  · intro h
    have h1 : ((endMs - startMs) / 60000 + 1 / 2 : ℚ) < ((1 : Int) : ℚ) :=
      Int.floor_lt.mp (Int.lt_add_one_iff.mpr h)
    push_cast at h1
    linarith
  · intro h
    have h1 : ((endMs - startMs) / 60000 + 1 / 2 : ℚ) < ((1 : Int) : ℚ) := by
      push_cast
      linarith
    exact Int.lt_add_one_iff.mp (Int.floor_lt.mpr h1)

theorem addTimeEntry_validation_iff (task : Task) (user : Caller)
    (startMs endMs : ℚ) (d : Option String)
    (hassign : task.assignedTo = user.id) :
    addTimeEntry (some task) user startMs endMs d =
      TimeTrackResult.validationError ↔ timeDuration startMs endMs ≤ 0 := by
  have h0 : addTimeEntry (some task) user startMs endMs d =
      (if (task.assignedTo != user.id) = true then TimeTrackResult.accessDenied
       else if timeDuration startMs endMs ≤ 0 then
         TimeTrackResult.validationError
       else TimeTrackResult.ok { task with timeTracking := task.timeTracking ++
         [⟨startMs, endMs, timeDuration startMs endMs, d, dateOfMs startMs⟩] }) :=
    rfl
  rw [h0, if_neg (by simp [hassign])]
  by_cases hd : timeDuration startMs endMs ≤ 0
  · simp [hd]
  · simp [hd]

/-- C5 as stated fails on the code: with the end 1000 ms strictly after the
start, the rounded duration is 0, so the entry is rejected as a validation
failure even though the end time is strictly after the start time. -/
theorem c5_counterexample :
    addTimeEntry (some sampleTask) ⟨"e1", "employee"⟩ 0 1000 none =
      TimeTrackResult.validationError ∧ (0 : ℚ) < 1000 := by
  constructor
  · rw [addTimeEntry_validation_iff sampleTask ⟨"e1", "employee"⟩ 0 1000 none
      rfl, timeDuration_nonpos_iff]
    norm_num
  · norm_num

/-- C5 (amended): for a time-tracking append by the task's assignee with
parseable timestamps, the request signals a validation failure with the list
unchanged exactly when the rounded duration is non-positive, that is, when
the end time is less than 30000 ms after the start time — an end strictly
after the start can still be rejected; otherwise exactly one entry is
appended whose duration round((end - start) / 60000) is strictly positive
and whose date is the calendar day of the start time. -/
theorem c5_time_entry_validation (task : Task) (user : Caller)
    (startMs endMs : ℚ) (d : Option String)
    (hassign : task.assignedTo = user.id) :
    (addTimeEntry (some task) user startMs endMs d =
      TimeTrackResult.validationError ↔ endMs - startMs < 30000) ∧
    (30000 ≤ endMs - startMs →
      addTimeEntry (some task) user startMs endMs d = TimeTrackResult.ok
        { task with timeTracking := task.timeTracking ++
          [⟨startMs, endMs, timeDuration startMs endMs, d, dateOfMs startMs⟩] } ∧
      0 < timeDuration startMs endMs) := by
  refine ⟨(addTimeEntry_validation_iff task user startMs endMs d hassign).trans
    (timeDuration_nonpos_iff startMs endMs), fun hge => ?_⟩
  have hpos : 0 < timeDuration startMs endMs := by
    by_contra hc
    push_neg at hc
    have hlt := (timeDuration_nonpos_iff startMs endMs).mp hc
    linarith
  have h0 : addTimeEntry (some task) user startMs endMs d =
      (if (task.assignedTo != user.id) = true then TimeTrackResult.accessDenied
       else if timeDuration startMs endMs ≤ 0 then
         TimeTrackResult.validationError
       else TimeTrackResult.ok { task with timeTracking := task.timeTracking ++
         [⟨startMs, endMs, timeDuration startMs endMs, d, dateOfMs startMs⟩] }) :=
    rfl
  rw [h0, if_neg (by simp [hassign]), if_neg (not_le.mpr hpos)]
  exact ⟨rfl, hpos⟩

/-- Witness for C5 (amended): the spec scenario — a 09:00 to 09:45 entry
yields duration 45 on the start's calendar day 0. -/
theorem c5_time_entry_validation_witness :
    addTimeEntry (some sampleTask) ⟨"e1", "employee"⟩ 32400000 35100000 none =
      TimeTrackResult.ok { sampleTask with
        timeTracking := sampleTask.timeTracking ++
          [⟨32400000, 35100000, 45, none, 0⟩] } ∧
    (0 : Int) < 45 :=
  have hd : timeDuration 32400000 35100000 = 45 := by
    unfold timeDuration jsRound
    rw [Int.floor_eq_iff]
    norm_num
  have hdate : dateOfMs 32400000 = 0 := by
    unfold dateOfMs
    rw [Int.floor_eq_iff]
    norm_num
  have h := (c5_time_entry_validation sampleTask ⟨"e1", "employee"⟩
    32400000 35100000 none rfl).2 (by norm_num)
  ⟨h.1.trans (by rw [hd, hdate]), by decide⟩

/-- C7: for every task-creation request, the created task's assignedBy
equals the authenticated caller's id, and a client-supplied assignedBy value
has no influence on the persisted task: two requests identical except for
that field produce the same result. -/
theorem c7_assignedBy_from_caller (user : Caller) (valid assigneeExists : Bool)
    (b : CreateBody) :
    (∀ doc, createTask user valid assigneeExists b = CreateResult.ok doc →
      doc.assignedBy = user.id) ∧
    (∀ x y : Option String,
      createTask user valid assigneeExists { b with assignedBy := x } =
        createTask user valid assigneeExists { b with assignedBy := y }) := by
  constructor
  · intro doc h
    unfold createTask at h
    split at h
    · simp at h
    · split at h
      · simp at h
      · split at h
        · simp at h
        · cases h
          rfl
  · intro x y
    rfl

/-- Witness for C7: an admin creating from sampleBody yields a document whose
assignedBy is the admin's id, and changing the client-supplied assignedBy
leaves the result unchanged. -/
theorem c7_assignedBy_from_caller_witness :
    ({ title := "t", description := "d", priority := "high",
       assignedTo := "e1", assignedBy := "a1", dueDate := 0,
       estimatedHours := none, category := "design", tags := [],
       dependencies := [], isRecurring := none,
       recurringPattern := none } : NewTaskDoc).assignedBy = "a1" ∧
    createTask ⟨"a1", "admin"⟩ true true
        { sampleBody with assignedBy := some "evil" } =
      createTask ⟨"a1", "admin"⟩ true true
        { sampleBody with assignedBy := none } :=
  ⟨(c7_assignedBy_from_caller ⟨"a1", "admin"⟩ true true sampleBody).1
      _ (by decide),
    (c7_assignedBy_from_caller ⟨"a1", "admin"⟩ true true sampleBody).2
      (some "evil") none⟩

/-- C8 as stated fails on the code: the documented defaults apply only when
page and limit are absent; a supplied non-positive page or limit is passed
through, so page 0 yields a skip of -10 where defaulted pagination yields 0,
and limit 0 yields page-size 0 instead of 10. -/
theorem c8_counterexample :
    effectiveSkip (some "0") none = some (-10) ∧
    effectiveSkip none none = some 0 ∧
    effectiveLimit (some "0") = some 0 ∧
    effectiveLimit none = some 10 := by
  refine ⟨?_, ?_, by decide, rfl⟩
  · have h : jsNumber "0" = some (mkRat 0 1) := by decide
    simp only [effectiveSkip, pageNumber, limitNumber, h]
    rw [Rat.mkRat_eq_div]
    norm_num
  · simp only [effectiveSkip, pageNumber, limitNumber]
    norm_num

/-- C8 (amended): absent page and limit fall back to the documented defaults
page 1 and limit 10; supplied invalid or non-positive values are not
corrected but passed through towards the persistence layer — a page value
coercing to the finite number p yields skip (p - 1) * 10, one with no finite
numeric value yields NaN, and a supplied limit is used exactly as parseInt
parses it; the status, priority and category filters degrade to no filter
when absent or equal to the sentinel value all, never to an error. -/
theorem c8_pagination_defaults (s : String) (p : ℚ) (n : Int) :
    effectiveSkip none none = some 0 ∧
    effectiveLimit none = some 10 ∧
    (jsNumber s = some p → effectiveSkip (some s) none = some ((p - 1) * 10)) ∧
    (jsNumber s = none → effectiveSkip (some s) none = none) ∧
    (jsParseInt s = some n → effectiveLimit (some s) = some n) ∧
    statusFilter none = none ∧ statusFilter (some "all") = none ∧
    priorityFilter none = none ∧ priorityFilter (some "all") = none ∧
    categoryFilter none = none ∧ categoryFilter (some "all") = none := by
  refine ⟨?_, rfl, fun h => ?_, fun h => ?_, fun h => ?_,
    rfl, by decide, rfl, by decide, rfl, by decide⟩
  · simp only [effectiveSkip, pageNumber, limitNumber]
    norm_num
  · simp [effectiveSkip, pageNumber, limitNumber, h]
  · simp [effectiveSkip, pageNumber, limitNumber, h]
  · simp [effectiveLimit, h]

/-- Witness for C8 (amended): page 2 yields skip 10; the coerced shapes 2.5,
space-5, +5 and 1e2 yield their numeric skips 15, 40, 40 and 990; limit 0x10
is parsed as 16 and limit 2 as 2; a page with no numeric value yields NaN. -/
theorem c8_pagination_defaults_witness :
    effectiveSkip (some "2") none = some 10 ∧
    effectiveSkip (some "2.5") none = some 15 ∧
    effectiveSkip (some " 5") none = some 40 ∧
    effectiveSkip (some "+5") none = some 40 ∧
    effectiveSkip (some "1e2") none = some 990 ∧
    effectiveLimit (some "0x10") = some 16 ∧
    effectiveLimit (some "2") = some 2 ∧
    effectiveSkip (some "x") none = none := by
  refine ⟨?_, ?_, ?_, ?_, ?_, ?_, ?_, ?_⟩
  · have h := (c8_pagination_defaults "2" (mkRat 2 1) 0).2.2.1 (by decide)
    rw [h, Rat.mkRat_eq_div]
    norm_num
  · have h := (c8_pagination_defaults "2.5" (mkRat 5 2) 0).2.2.1 (by decide)
    rw [h, Rat.mkRat_eq_div]
    norm_num
  · have h := (c8_pagination_defaults " 5" (mkRat 5 1) 0).2.2.1 (by decide)
    rw [h, Rat.mkRat_eq_div]
    norm_num
  · have h := (c8_pagination_defaults "+5" (mkRat 5 1) 0).2.2.1 (by decide)
    rw [h, Rat.mkRat_eq_div]
    norm_num
  · have h := (c8_pagination_defaults "1e2" (mkRat 100 1) 0).2.2.1 (by decide)
    rw [h, Rat.mkRat_eq_div]
    norm_num
  · exact (c8_pagination_defaults "0x10" 0 16).2.2.2.2.1 (by decide)
  · exact (c8_pagination_defaults "2" 0 2).2.2.2.2.1 (by decide)
  · exact (c8_pagination_defaults "x" 0 0).2.2.2.1 (by decide)

theorem groupKeys_group_nonempty (l : List Task) (k : String)
    (hk : k ∈ groupKeys l) :
    0 < (l.filter (fun t => t.assignedTo == k)).length := by
  unfold groupKeys at hk
  rw [List.mem_dedup] at hk
  obtain ⟨t, ht, he⟩ := List.mem_map.mp hk
  exact List.length_pos_of_mem (List.mem_filter.mpr ⟨ht, by simp [he]⟩)

theorem mkSummaryRow_spec (name : String) (group : List Task)
    (h : 0 < group.length) :
    0 < (mkSummaryRow name group).totalTasks ∧
    (mkSummaryRow name group).completionRate =
      round2 (((mkSummaryRow name group).completedTasks : ℚ) /
        ((mkSummaryRow name group).totalTasks : ℚ) * 100) ∧
    (mkSummaryRow name group).efficiency =
      (if 0 < (mkSummaryRow name group).totalEstimatedHours ∧
          0 < (mkSummaryRow name group).totalActualHours then
        some (round2 ((mkSummaryRow name group).totalEstimatedHours /
          (mkSummaryRow name group).totalActualHours * 100))
      else none) := by
  have htot : (0 : Int) < (group.length : Int) := by exact_mod_cast h
  simp only [mkSummaryRow]
  refine ⟨htot, ?_, ?_⟩
  · rw [if_pos htot]
  · trivial

theorem mkByEmployeeRow_spec (name : String) (group : List Task)
    (h : 0 < group.length) :
    0 < (mkByEmployeeRow name group).totalTasks ∧
    (mkByEmployeeRow name group).completionRate =
      ((mkByEmployeeRow name group).completedTasks : ℚ) /
        ((mkByEmployeeRow name group).totalTasks : ℚ) * 100 := by
  have htot : (0 : Int) < (group.length : Int) := by exact_mod_cast h
  simp only [mkByEmployeeRow]
  exact ⟨htot, by rw [if_pos htot]⟩

theorem employeeSummary_mem (ts : List Task)
    (userName : String → Option String) (row : SummaryRow)
    (hrow : row ∈ employeeSummary ts userName) :
    ∃ name group, 0 < group.length ∧ row = mkSummaryRow name group := by
  simp only [employeeSummary] at hrow
  rw [List.mem_insertionSort] at hrow
  obtain ⟨k, hk, he⟩ := List.mem_map.mp hrow
  exact ⟨_, _, groupKeys_group_nonempty _ k hk, he.symm⟩

theorem tasksByEmployee_mem (ts : List Task)
    (userName : String → Option String) (row : ByEmployeeRow)
    (hrow : row ∈ tasksByEmployee ts userName) :
    ∃ name group, 0 < group.length ∧ row = mkByEmployeeRow name group := by
  simp only [tasksByEmployee] at hrow
  rw [List.mem_insertionSort] at hrow
  obtain ⟨k, hk, he⟩ := List.mem_map.mp hrow
  exact ⟨_, _, groupKeys_group_nonempty _ k hk, he.symm⟩

/-- C9 (amended): in the employee-summary view, every listed employee has at
least one matching task, the completion rate is completedTasks divided by
totalTasks times 100 rounded to two decimals (the zero-total fallback is
unreachable), efficiency is estimated over actual hours times 100 rounded to
two decimals and null when either total is not positive, and rows are sorted
by completion rate descending with ties broken by name ascending; in the
by-employee view every listed employee likewise has at least one task and
the same unrounded completion-rate formula, but rows are sorted by employee
name ascending only, and no efficiency value exists in its projection. -/
theorem c9_employee_grouping (ts : List Task)
    (userName : String → Option String) :
    (∀ row ∈ employeeSummary ts userName, 0 < row.totalTasks) ∧
    (∀ row ∈ employeeSummary ts userName,
      row.completionRate =
        round2 ((row.completedTasks : ℚ) / (row.totalTasks : ℚ) * 100)) ∧
    (∀ row ∈ employeeSummary ts userName,
      row.efficiency = (if 0 < row.totalEstimatedHours ∧
          0 < row.totalActualHours then
        some (round2 (row.totalEstimatedHours / row.totalActualHours * 100))
      else none)) ∧
    List.Sorted summaryLE (employeeSummary ts userName) ∧
    (∀ row ∈ tasksByEmployee ts userName, 0 < row.totalTasks ∧
      row.completionRate =
        (row.completedTasks : ℚ) / (row.totalTasks : ℚ) * 100) ∧
    List.Sorted byEmployeeLE (tasksByEmployee ts userName) := by
  refine ⟨?_, ?_, ?_, ?_, ?_, ?_⟩
  · intro row hrow
    obtain ⟨name, group, hg, he⟩ := employeeSummary_mem ts userName row hrow
    subst he
    exact (mkSummaryRow_spec name group hg).1
  · intro row hrow
    obtain ⟨name, group, hg, he⟩ := employeeSummary_mem ts userName row hrow
    subst he
    exact (mkSummaryRow_spec name group hg).2.1
  · intro row hrow
    obtain ⟨name, group, hg, he⟩ := employeeSummary_mem ts userName row hrow
    subst he
    exact (mkSummaryRow_spec name group hg).2.2
  · exact List.sorted_insertionSort summaryLE _
  · intro row hrow
    obtain ⟨name, group, hg, he⟩ := tasksByEmployee_mem ts userName row hrow
    subst he
    exact mkByEmployeeRow_spec name group hg
  · exact List.sorted_insertionSort byEmployeeLE _

/-- C9 as stated fails on the code: in the by-employee view over a completed
task of zoe and a pending task of amy, the first listed row is amy with
completion rate 0 and the second zoe with rate 100, so the listing is sorted
by name ascending and not by completion rate descending. -/
theorem c9_counterexample :
    (tasksByEmployee [sampleTask, pendingTask] demoNames).map
      (fun r => (r.name, r.completionRate)) = [("amy", 0), ("zoe", 100)] ∧
    ¬ ((100 : ℚ) ≤ 0) := by
  have hlive : ([sampleTask, pendingTask].filter
      (fun t => (demoNames t.assignedTo).isSome)) = [sampleTask, pendingTask] := by
    decide
  have hsort : List.insertionSort byEmployeeLE
      [mkByEmployeeRow "zoe" [sampleTask], mkByEmployeeRow "amy" [pendingTask]] =
      [mkByEmployeeRow "amy" [pendingTask], mkByEmployeeRow "zoe" [sampleTask]] := by
    simp only [List.insertionSort, List.orderedInsert]
    rw [if_neg (show ¬ byEmployeeLE (mkByEmployeeRow "zoe" [sampleTask])
        (mkByEmployeeRow "amy" [pendingTask]) from by
      show ¬ (("zoe" : String) ≤ "amy")
      rw [String.le_iff_toList_le]
      decide)]
  have heval : tasksByEmployee [sampleTask, pendingTask] demoNames =
      [mkByEmployeeRow "amy" [pendingTask], mkByEmployeeRow "zoe" [sampleTask]] := by
    show List.insertionSort byEmployeeLE
      ((groupKeys ([sampleTask, pendingTask].filter
        (fun t => (demoNames t.assignedTo).isSome))).map (fun k =>
          mkByEmployeeRow ((demoNames k).getD "")
            (([sampleTask, pendingTask].filter
              (fun t => (demoNames t.assignedTo).isSome)).filter
              (fun t => t.assignedTo == k)))) = _
    rw [hlive]
    rw [show groupKeys [sampleTask, pendingTask] = ["e1", "e2"] from by decide]
    simp only [List.map_cons, List.map_nil]
    rw [show (demoNames "e1").getD "" = "zoe" from by decide,
      show (demoNames "e2").getD "" = "amy" from by decide,
      show [sampleTask, pendingTask].filter (fun t => t.assignedTo == "e1") =
        [sampleTask] from by decide,
      show [sampleTask, pendingTask].filter (fun t => t.assignedTo == "e2") =
        [pendingTask] from by decide]
    exact hsort
  have hamy : (mkByEmployeeRow "amy" [pendingTask]).completionRate = 0 := by
    simp only [mkByEmployeeRow, countStatus]
    rw [show [pendingTask].filter (fun t => t.status == "completed") = [] from
      by decide]
    norm_num
  have hzoe : (mkByEmployeeRow "zoe" [sampleTask]).completionRate = 100 := by
    simp only [mkByEmployeeRow, countStatus]
    rw [show [sampleTask].filter (fun t => t.status == "completed") =
      [sampleTask] from by decide]
    norm_num
  constructor
  · rw [heval]
    simp only [List.map_cons, List.map_nil]
    rw [hamy, hzoe]
    rfl
  · norm_num

/-- Witness for C9 (amended): zoe's summary group over the two demo tasks is
listed with a positive task count, and the summary rows are sorted by the
summary order. -/
theorem c9_employee_grouping_witness :
    0 < (mkSummaryRow "zoe" [sampleTask]).totalTasks ∧
    List.Sorted summaryLE (employeeSummary [sampleTask, pendingTask] demoNames) := by
  constructor
  · have hk : "e1" ∈ groupKeys ([sampleTask, pendingTask].filter
        (fun t => (demoNames t.assignedTo).isSome)) := by decide
    have hmem : mkSummaryRow ((demoNames "e1").getD "")
        (([sampleTask, pendingTask].filter
          (fun t => (demoNames t.assignedTo).isSome)).filter
          (fun t => t.assignedTo == "e1")) ∈
        employeeSummary [sampleTask, pendingTask] demoNames :=
      (List.mem_insertionSort summaryLE).mpr (List.mem_map_of_mem _ hk)
    have h := (c9_employee_grouping [sampleTask, pendingTask] demoNames).1 _ hmem
    rw [show (demoNames "e1").getD "" = "zoe" from by decide,
      show ([sampleTask, pendingTask].filter
        (fun t => (demoNames t.assignedTo).isSome)).filter
        (fun t => t.assignedTo == "e1") = [sampleTask] from by decide] at h
    exact h
  · exact (c9_employee_grouping [sampleTask, pendingTask] demoNames).2.2.2.1

end TaskApi
